import Mathlib

/-!
gosdk, package `sdk`: allocation orchestration.

The sources hold `zboxcore/sdk/allocation_test.go` only; the file under test,
`allocation.go`, is not among them.  Every definition of this section that
stands for a function of `allocation.go` is therefore written from the design
document and says so in its doc comment.  The test tables of
`allocation_test.go` are transcribed as data where they are used.
-/

set_option linter.unusedVariables false

namespace Sdk

/-! ## PriceRange -/

/-- Modelled from the spec: the type `PriceRange` of `allocation.go` (not among
the sources).  `Min` and `Max` are signed integers in the smallest price unit;
the test builds them from `int64` fields.  No arithmetic is done on them, so
they are kept as unbounded integers. -/
structure PriceRange where
  Min : Int
  Max : Int
deriving DecidableEq, Repr

/-- Modelled from the spec: `PriceRange.IsValid` of `allocation.go` (not among
the sources): "returns true iff `Min >= 0` and `Min <= Max`". -/
def PriceRange.IsValid (pr : PriceRange) : Bool :=
  decide (0 ≤ pr.Min) && decide (pr.Min ≤ pr.Max)

/-! ## Allocation and the initialization gate -/

/-- Storage-node descriptor, with the two fields the tests fill in
(`blockchain.StorageNode{ID, Baseurl}`). -/
structure StorageNode where
  ID : String
  Baseurl : String
deriving DecidableEq, Repr

/-- Modelled from the spec: a blobber's view of a path, "(hash, size,
metadata)"; the type `fileref.FileRef` is not among the sources. -/
structure FileRef where
  Path : String
  Hash : String
  Size : Nat
deriving DecidableEq, Repr

/-- Modelled from the spec: `AllocationStats`, "mutable aggregate counters
(bytes stored, blobber-level stats)"; the type is not among the sources. -/
structure AllocationStats where
  UsedSize : Nat
  NumWrites : Nat
deriving DecidableEq, Repr

/-- Modelled from the spec: the aggregate `Allocation` of `allocation.go` (not
among the sources): identity, the ordered blobber set, the statistics, the
allocation's own `initialized` flag and the consensus threshold ("how many of
the blobbers must agree"). -/
structure Allocation where
  ID : String
  Blobbers : List StorageNode
  Stats : AllocationStats
  initialized : Bool
  consensusThresh : Nat
deriving DecidableEq, Repr

/-- Modelled from the spec: `Allocation.isInitialized` of `allocation.go` (not
among the sources): "returns true iff a process-wide SDK-initialized flag is
true and the allocation's own `initialized` flag is true".  The process-wide
flag `sdkInitialized` is passed explicitly. -/
def Allocation.isInitialized (sdkInitialized : Bool) (a : Allocation) : Bool :=
  sdkInitialized && a.initialized

/-! ## Consensus tracker -/

/-- Width of the `found` bitmask (`uint32`). -/
def maskBits : Nat := 32

/-- Bit-counting loop over the low `k` bits of `n`: adds the lowest bit and
shifts right, `k` times. -/
def countOnesAux : Nat → Nat → Nat
  | 0, _ => 0
  | k + 1, n => n % 2 + countOnesAux k (n / 2)

/-- Modelled from the spec: "the count of set bits" of a `uint32` mask.  The
mask is reduced to 32 bits before counting. -/
def countOnes (found : Nat) : Nat :=
  countOnesAux maskBits (found % 2 ^ maskBits)

/-- The positions of the set bits of a 32-bit mask. -/
def setBits (found : Nat) : Finset Nat :=
  (Finset.range maskBits).filter (fun i => found.testBit i = true)

/-- Modelled from the spec: the verdict of the Consensus Tracker, absent from
the sources: "`matchesConsensus` is true iff the count of set bits meets the
allocation's threshold", with an inclusive comparison. -/
def matchesConsensus (found threshold : Nat) : Bool :=
  decide (threshold ≤ countOnes found)

/-- The `uint32` value `1 << i`: zero once the shift reaches the width. -/
def bit32 (i : Nat) : Nat :=
  (1 <<< i) % 2 ^ maskBits

/-- Modelled from the spec: the Consensus Tracker records one blobber outcome:
"bit i set iff blobber i's outcome satisfied the per-operation acceptance
predicate"; an outcome that did not leaves the mask as it is. -/
def recordOutcome (found : Nat) (arrival : Nat × Bool) : Nat :=
  if arrival.2 then (found ||| bit32 arrival.1) % 2 ^ maskBits else found

/-- Modelled from the spec: the consensus reduction.  The outcomes are fed in
the order of arrival, each tagged with the index of its blobber, starting from
the empty mask. -/
def reduceOutcomes (arrivals : List (Nat × Bool)) : Nat :=
  arrivals.foldl recordOutcome 0

/-- Modelled from the spec: the pair `(found, matchesConsensus)` that the
reduction hands back for a threshold. -/
def consensusOf (threshold : Nat) (arrivals : List (Nat × Bool)) : Nat × Bool :=
  (reduceOutcomes arrivals, matchesConsensus (reduceOutcomes arrivals) threshold)

/-! ## Collaborators and the observable state -/

/-- Modelled from the spec: the error taxonomy of section 7.  The error values
of `allocation.go` are not among the sources. -/
inductive SdkError
  | NotInitialized
  | InvalidLocalPath
  | InvalidRemotePath
  | RemoteNotFound
  | ContentMismatch
  | ConsensusNotReached (required achieved : Nat)
  | Cancelled
  | TransportError
deriving DecidableEq, Repr

/-- The logical request sent to every blobber of the allocation. -/
inductive OpKind
  | upload | update | download | delete | move | copy | rename
  | updateAttributes | addCollaborator | removeCollaborator
  | fileStats | fileMeta | authTicket
deriving DecidableEq, Repr

/-- One blobber request: what is asked, for which remote path, with the second
argument of the operation (destination path, collaborator id, ...) when it has
one. -/
structure Request where
  kind : OpKind
  path : String
  arg : String
deriving DecidableEq, Repr

/-- Modelled from the spec: what the blobber transport hands back for one
call.  `ref r` is a success carrying a matching, well-formed reference (the
blobber-communication collaborator owns the references and decides that);
`accepted` is a success without a reference; "not found" and errors (a missed
deadline included) are the two other outcomes. -/
inductive Outcome
  | ref (r : FileRef)
  | accepted
  | notFound
  | failed
deriving DecidableEq, Repr

/-- Acceptance predicate of the reference query: the blobber returned a
matching, well-formed reference. -/
def Outcome.hasRef : Outcome → Bool
  | .ref _ => true
  | _ => false

/-- Acceptance predicate of the mutating operations: the blobber answered with
a success. -/
def Outcome.isSuccess : Outcome → Bool
  | .ref _ => true
  | .accepted => true
  | _ => false

/-- The reference carried by an outcome, if any. -/
def Outcome.fileRef : Outcome → Option FileRef
  | .ref r => some r
  | _ => none

/-- The four events of the status callback, with the remote path they are
about. -/
inductive StatusEvent
  | Started (remotePath : String)
  | InProgress (remotePath : String)
  | Error (remotePath : String) (err : SdkError)
  | Completed (remotePath : String)
deriving DecidableEq, Repr

/-- The collaborators the core consumes: the blobber transport (blobber index
and request to outcome) and the local filesystem (content hash and size of a
readable file, nothing for an unreadable one). -/
structure Collaborators where
  transport : Nat → Request → Outcome
  localFile : String → Option (String × Nat)

/-- Everything an operation can observe or change: the process-wide flag, the
allocation, the blobber calls issued so far (blobber index and request, oldest
first) and the status events delivered so far. -/
structure World where
  sdkInitialized : Bool
  alloc : Allocation
  calls : List (Nat × Request)
  events : List StatusEvent
deriving DecidableEq, Repr

/-- The gate evaluated on the current state. -/
def World.ready (w : World) : Bool :=
  w.alloc.isInitialized w.sdkInitialized

/-- Modelled from the spec: the Blobber Response Fetcher, absent from the
sources: "issues the same logical request to every blobber in the allocation's
blobber set" and pairs each outcome with the index of its blobber. -/
def fetchAll (c : Collaborators) (a : Allocation) (req : Request) : List (Nat × Outcome) :=
  (List.range a.Blobbers.length).map (fun i => (i, c.transport i req))

/-- Whether blobber `i` reports the file at `remotePath`: its answer to the
reference query carries a reference. -/
def reports (c : Collaborators) (remotePath : String) (i : Nat) : Bool :=
  (c.transport i ⟨OpKind.fileMeta, remotePath, ""⟩).hasRef

/-- The calls that one fan-out adds to the log. -/
def callsOf (a : Allocation) (req : Request) : List (Nat × Request) :=
  (List.range a.Blobbers.length).map (fun i => (i, req))

/-- Modelled from the spec: "`remotePath` must be a well-formed absolute
remote path; empty or malformed paths fail".  A path is absolute when its
first character is the slash. -/
def isRemoteAbs (path : String) : Bool :=
  path.data.head? == some '/'

/-! ## Repair evaluator -/

/-- The four values `RepairRequired` returns. -/
structure RepairResult where
  found : Nat
  matchesConsensus : Bool
  fileRef : Option FileRef
  err : Option SdkError
deriving DecidableEq, Repr

/-- The arrivals handed to the tracker by the reference query: each blobber
index with whether its outcome carried a reference. -/
def refArrivals (outcomes : List (Nat × Outcome)) : List (Nat × Bool) :=
  outcomes.map (fun p => (p.1, p.2.hasRef))

/-- The representative reference: the one of the first agreeing blobber, in
index order; nothing when no blobber agrees. -/
def representative (outcomes : List (Nat × Outcome)) : Option FileRef :=
  outcomes.findSome? (fun p => p.2.fileRef)

/-- The verdict of the Repair Evaluator on the outcomes of the reference
query, for a consensus threshold (steps 3 to 6 of section 4.4). -/
def repairVerdict (threshold : Nat) (outcomes : List (Nat × Outcome)) : RepairResult :=
  let found := reduceOutcomes (refArrivals outcomes)
  match representative outcomes with
  | none => ⟨found, false, none, some SdkError.RemoteNotFound⟩
  | some r => ⟨found, matchesConsensus found threshold, some r, none⟩

/-- Modelled from the spec: `Allocation.RepairRequired` of `allocation.go` (not
among the sources), section 4.4.  (1) an allocation that is not initialized
fails with "not initialized" and `found == 0`, before any blobber is asked;
(2) every blobber is queried for its reference at `remotePath`; (3) a blobber
that returns a matching, well-formed reference sets its bit in `found`, "not
found" and errors leave it clear; (4) `matchesConsensus` is true iff the count
of set bits meets the threshold; (5) one reference of an agreeing blobber is
returned, and when no blobber agrees the result is a nil reference and a "file
not found" error, next to which the boolean is false as in the rows of the test
table that expect an error. -/
def RepairRequired (c : Collaborators) (remotePath : String) (w : World) :
    RepairResult × World :=
  if w.ready then
    let req : Request := ⟨OpKind.fileMeta, remotePath, ""⟩
    (repairVerdict w.alloc.consensusThresh (fetchAll c w.alloc req),
      { w with calls := w.calls ++ callsOf w.alloc req })
  else
    (⟨0, false, none, some SdkError.NotInitialized⟩, w)

/-! ## File operations -/

/-- Fan-out of one request with consensus acceptance (section 4.3): every
blobber is called once, the outcomes are reduced by the tracker, and too few
accepting blobbers give the consensus error naming the required and the
achieved count.  The status callback sees `Started` and one terminal event. -/
def fanOut (c : Collaborators) (req : Request) (w : World) : Option SdkError × World :=
  let outcomes := fetchAll c w.alloc req
  let verdict := consensusOf w.alloc.consensusThresh
    (outcomes.map (fun p => (p.1, p.2.isSuccess)))
  let calls := w.calls ++ callsOf w.alloc req
  if verdict.2 then
    (none, { w with
      calls := calls
      events := w.events ++ [StatusEvent.Started req.path, StatusEvent.Completed req.path] })
  else
    let e := SdkError.ConsensusNotReached w.alloc.consensusThresh (countOnes verdict.1)
    (some e, { w with
      calls := calls
      events := w.events ++ [StatusEvent.Started req.path, StatusEvent.Error req.path e] })

/-- Modelled from the spec: the three-step contract of section 4.7, shared by
the path operations of `allocation.go` (not among the sources):
"initialization gate → path validation (absolute remote path required; empty
or non-absolute paths fail) → fan-out to blobbers with consensus acceptance". -/
def pathOp (c : Collaborators) (kind : OpKind) (path arg : String) (w : World) :
    Option SdkError × World :=
  if w.ready then
    if isRemoteAbs path then fanOut c ⟨kind, path, arg⟩ w
    else (some SdkError.InvalidRemotePath, w)
  else (some SdkError.NotInitialized, w)

/-- Statistics after a completed write of `size` bytes. -/
def AllocationStats.addWrite (s : AllocationStats) (size : Nat) : AllocationStats :=
  { s with UsedSize := s.UsedSize + size, NumWrites := s.NumWrites + 1 }

/-- Modelled from the spec: `Allocation.uploadOrUpdateFile` of `allocation.go`
(not among the sources), section 4.5: (1) initialization gate; (2) the local
file must be readable; (3) the remote path must be a well-formed absolute
path; (4) an unreadable thumbnail does not fail the operation, the upload goes
on without it; (5) under `isRepair` the remote path is resolved by the Repair
Evaluator first: an unresolved path fails with "remote file not found", a
content hash different from the local one with "content hash mismatch";
(6) fan-out to the blobber set with consensus acceptance.  A completed
operation merges its size into the statistics. -/
def uploadOrUpdateFile (c : Collaborators) (localPath remotePath : String)
    (isUpdate : Bool) (thumbnailPath : String) (encryption isRepair : Bool) (w : World) :
    Option SdkError × World :=
  if w.ready then
    match c.localFile localPath with
    | none => (some SdkError.InvalidLocalPath, w)
    | some (hash, size) =>
      if isRemoteAbs remotePath then
        let thumb := if (c.localFile thumbnailPath).isSome then thumbnailPath else ""
        let kind := if isUpdate then OpKind.update else OpKind.upload
        let send (w1 : World) : Option SdkError × World :=
          match fanOut c ⟨kind, remotePath, thumb⟩ w1 with
          | (none, w2) => (none, { w2 with alloc := { w2.alloc with Stats := w2.alloc.Stats.addWrite size } })
          | r => r
        if isRepair then
          match RepairRequired c remotePath w with
          | (⟨_, _, none, _⟩, w1) => (some SdkError.RemoteNotFound, w1)
          | (⟨_, _, some r, _⟩, w1) =>
            if r.Hash = hash then send w1 else (some SdkError.ContentMismatch, w1)
        else send w
      else (some SdkError.InvalidRemotePath, w)
  else (some SdkError.NotInitialized, w)

/-- Modelled from the spec: `Allocation.downloadFile` of `allocation.go` (not
among the sources), section 4.6: gate, then the remote path is resolved
through the Repair Evaluator, then the block range is fetched from the
blobbers with consensus acceptance. -/
def downloadFile (c : Collaborators) (localPath remotePath contentMode : String)
    (startBlock endBlock : Int) (numBlocks : Int) (w : World) : Option SdkError × World :=
  if w.ready then
    match RepairRequired c remotePath w with
    | (⟨_, _, none, _⟩, w1) => (some SdkError.RemoteNotFound, w1)
    | (⟨_, _, some _, _⟩, w1) => fanOut c ⟨OpKind.download, remotePath, contentMode⟩ w1
  else (some SdkError.NotInitialized, w)

/-- The public file operations of an allocation, with their arguments (the
status callback is the event log of the state). -/
inductive FileOp
  | uploadOrUpdateFile (localPath remotePath : String) (isUpdate : Bool)
      (thumbnailPath : String) (encryption isRepair : Bool)
  | downloadFile (localPath remotePath contentMode : String)
      (startBlock endBlock : Int) (numBlocks : Int)
  | DeleteFile (path : String)
  | MoveObject (path destPath : String)
  | CopyObject (path destPath : String)
  | RenameObject (path destName : String)
  | UpdateObjectAttributes (path attrs : String)
  | AddCollaborator (filePath collaboratorID : String)
  | RemoveCollaborator (filePath collaboratorID : String)
  | GetFileStats (path : String)
  | GetFileMeta (path : String)
  | GetAuthTicketForShare (path filename referenceType refereeClientID : String)
deriving DecidableEq, Repr

/-- Modelled from the spec: the public methods of `Allocation` (not among the
sources).  The two orchestrators follow sections 4.5 and 4.6; every other
operation follows the three-step contract of section 4.7 on its path, which is
also what the test tables expect of `GetFileStats` and
`GetAuthTicketForShare` for the paths "" and "x".  The error is the method's
`error` return, `none` standing for nil. -/
def FileOp.run (c : Collaborators) : FileOp → World → Option SdkError × World
  | .uploadOrUpdateFile l r u t e rp => Sdk.uploadOrUpdateFile c l r u t e rp
  | .downloadFile l r m s e n => Sdk.downloadFile c l r m s e n
  | .DeleteFile p => pathOp c OpKind.delete p ""
  | .MoveObject p d => pathOp c OpKind.move p d
  | .CopyObject p d => pathOp c OpKind.copy p d
  | .RenameObject p d => pathOp c OpKind.rename p d
  | .UpdateObjectAttributes p a => pathOp c OpKind.updateAttributes p a
  | .AddCollaborator p i => pathOp c OpKind.addCollaborator p i
  | .RemoveCollaborator p i => pathOp c OpKind.removeCollaborator p i
  | .GetFileStats p => pathOp c OpKind.fileStats p ""
  | .GetFileMeta p => pathOp c OpKind.fileMeta p ""
  | .GetAuthTicketForShare p f _ _ => pathOp c OpKind.authTicket p f

/-- The remote path of the operations that validate one before their fan-out
(the download resolves its path through the blobbers instead). -/
def FileOp.remotePath? : FileOp → Option String
  | .uploadOrUpdateFile _ r _ _ _ _ => some r
  | .downloadFile _ _ _ _ _ _ => none
  | .DeleteFile p => some p
  | .MoveObject p _ => some p
  | .CopyObject p _ => some p
  | .RenameObject p _ => some p
  | .UpdateObjectAttributes p _ => some p
  | .AddCollaborator p _ => some p
  | .RemoveCollaborator p _ => some p
  | .GetFileStats p => some p
  | .GetFileMeta p => some p
  | .GetAuthTicketForShare p _ _ _ => some p

/-! ## Test data and sample states -/

/-- One row of the table of `TestAllocation_RepairRequired`. -/
structure RepairCase where
  name : String
  remotePath : String
  wantFound : Nat
  wantMatchesConsensus : Bool
  wantErr : Bool
deriving DecidableEq, Repr

/-- The table of `TestAllocation_RepairRequired`, row by row. -/
def repairRequiredTests : List RepairCase :=
  [ ⟨"Test_Not_Repair_Required_Success", "/x.txt", 0xf, false, false⟩,
    ⟨"Test_Uninitialized_Failed", "/", 0, false, true⟩,
    ⟨"Test_Repair_Required_Success", "/", 0x7, true, false⟩,
    ⟨"Test_Remote_File_Not_Found_Failed", "/x.txt", 0x0, false, true⟩ ]

/-- An allocation of four blobbers, as the tests set one up. -/
def alloc4 (initialized : Bool) (threshold : Nat) : Allocation :=
  { ID := "alloc"
    Blobbers := [⟨"b0", "u0"⟩, ⟨"b1", "u1"⟩, ⟨"b2", "u2"⟩, ⟨"b3", "u3"⟩]
    Stats := ⟨0, 0⟩
    initialized := initialized
    consensusThresh := threshold }

/-- A state around `alloc4` with nothing logged yet. -/
def world4 (sdkInitialized initialized : Bool) (threshold : Nat) : World :=
  ⟨sdkInitialized, alloc4 initialized threshold, [], []⟩

/-- Collaborators whose blobbers with an index in `holders` return a
reference and accept every request, the others answering "not found"; one
local file, `1.txt`, is readable. -/
def sampleCollab (holders : List Nat) : Collaborators where
  transport i req :=
    if holders.contains i then Outcome.ref ⟨req.path, "h", 1⟩ else Outcome.notFound
  localFile p := if p = "1.txt" then some ("h", 1) else none

end Sdk

/-!
gosdk, package `errors` (`core/common/errors`).

`helpers.go`, `is.go` and `wrap.go` are embedded from the sources.  The file
`error.go`, which declares the two error types, their methods and the
constructors `New` and `newWithLevel`, is not among the sources: the types are
rebuilt from the fields the three files read and write, and the functions of
`error.go` that the three files call are parameters of the embedding.
-/

namespace Errors

/-- The struct `Error`, with the three fields that `Unmarshal` fills in and
`Is` compares (`Code`, `Msg`, `Location`); its declaration is in `error.go`. -/
structure Error where
  Code : String
  Msg : String
  Location : String
deriving DecidableEq, Repr

/-- A value of Go's interface `error` as the package tells them apart with its
type switches: the nil interface, a `*Error`, a `*withError` with its two
fields in the order of the composite literal of `Wrap`, and an error of any
other type (`errors.New` of the standard library for instance), identified by
the text its `Error()` returns. -/
inductive GoError
  | nil
  | err (e : Error)
  | withError (previous current : GoError)
  | foreign (text : String)
deriving DecidableEq, Repr

/-- The functions of `error.go` that the embedded files call: the constructor
`newWithLevel(level, args...)`, the method `(*Error).top()`, and the two
methods `Error()` of `*Error` and of `*withError`. -/
structure ErrorGo where
  newWithLevel : Nat → List String → Error
  top : Error → String
  errorText : Error → String
  withErrorText : GoError → GoError → String

/-- `isError` of `helpers.go`: the `*Error` behind the interface, nil (here
`none`) for any other dynamic type. -/
def isError : GoError → Option Error
  | .err t => some t
  | _ => none

/-- `isWithError` of `helpers.go`: the `*withError` behind the interface, as
its pair of fields `(previous, current)`, nil for any other dynamic type. -/
def isWithError : GoError → Option (GoError × GoError)
  | .withError previous current => some (previous, current)
  | _ => none

/-- `Is` of `is.go`.  The first equation is the branch `actualError != nil`,
the second the branch `actualWithError != nil`, the third the final `else`. -/
def Is : GoError → Error → Bool
  | .err actualError, target =>
    if actualError.Code = "" ∧ target.Code = "" then
      decide (actualError.Msg = target.Msg)
    else
      decide (actualError.Code = target.Code)
  | .withError previous current, target => Is current target || Is previous target
  | _, _ => false

/-- The method `err.Error()` of an interface value: the text of a foreign
error, the two methods of `error.go` for the package's own types, and a nil
dereference (`none`) on the nil interface. -/
def GoError.Error (g : ErrorGo) : GoError → Option String
  | .nil => none
  | .err e => some (g.errorText e)
  | .withError previous current => some (g.withErrorText previous current)
  | .foreign text => some text

/-- `Top` of `helpers.go`.  The outer type switch is the match on `err`, the
inner one the match on `t.current`; both `default` branches call
`err.Error()` on the error `Top` was given. -/
def Top (g : ErrorGo) : GoError → Option String
  | .err t => some (g.top t)
  | .withError previous current =>
    match current with
    | .err ct => some (g.top ct)
    | .withError p c => Top g (.withError p c)
    | .nil => GoError.Error g (.withError previous .nil)
    | .foreign text => GoError.Error g (.withError previous (.foreign text))
  | .nil => GoError.Error g .nil
  | .foreign text => GoError.Error g (.foreign text)

/-- `unicode.IsSpace` of the standard library. -/
def isSpace (c : Char) : Bool :=
  c.val = 0x09 || c.val = 0x0A || c.val = 0x0B || c.val = 0x0C || c.val = 0x0D ||
  c.val = 0x20 || c.val = 0x85 || c.val = 0xA0 || c.val = 0x1680 ||
  (0x2000 ≤ c.val && c.val ≤ 0x200A) || c.val = 0x2028 || c.val = 0x2029 ||
  c.val = 0x202F || c.val = 0x205F || c.val = 0x3000

/-- `strings.TrimSpace` of the standard library: the string without its
leading and trailing white space. -/
def TrimSpace (s : String) : String :=
  ⟨((s.data.dropWhile isSpace).reverse.dropWhile isSpace).reverse⟩

/-- The dynamic value passed as the second argument of `Wrap`
(`current interface{}`): the nil interface, a value that implements `error`, a
string, or a value of any other type. -/
inductive WrapArg
  | nil
  | error (c : GoError)
  | string (c : String)
  | other
deriving DecidableEq, Repr

/-- `invalidWrap` of `wrap.go`. -/
def invalidWrap (g : ErrorGo) : Error :=
  let code := "incorrect_usage"
  let msg := "you should pass either error or message to properly wrap the error!"
  g.newWithLevel 4 [code, msg]

/-- `Wrap` of `wrap.go`.  A nil interface matches no case of the type switch
and takes the `default` branch. -/
def Wrap (g : ErrorGo) (previous : GoError) (current : WrapArg) : GoError :=
  let currentError : GoError :=
    match current with
    | .error c =>
      match c with
      | .nil => .err (invalidWrap g)
      | _ => c
    | .string c =>
      if TrimSpace c = "" then .err (invalidWrap g)
      else .err (g.newWithLevel 3 [c])
    | _ => .err (invalidWrap g)
  .withError previous currentError

/-! ### `Unmarshal`

Go strings are byte sequences; here they are sequences of characters.  The
separators (newline, blank) and the colon are ASCII, so on valid UTF-8 the
bytes compared by the source are the characters compared here. -/

/-- Splitting a sequence of characters at every occurrence of a separator:
one field more than there are separators, the empty sequence giving one empty
field. -/
def splitChars (sep : Char) : List Char → List (List Char)
  | [] => [[]]
  | c :: cs =>
    if c = sep then [] :: splitChars sep cs
    else
      match splitChars sep cs with
      | [] => [[c]]
      | field :: rest => (c :: field) :: rest

/-- `strings.Split(s, sep)` of the standard library, for a separator of one
character. -/
def Split (s : String) (sep : Char) : List String :=
  (splitChars sep s.data).map String.mk

/-- `strings.Join(elems, sep)` of the standard library. -/
def Join : List String → String → String
  | [], _ => ""
  | [a], _ => a
  | a :: b :: rest, sep => a ++ sep ++ Join (b :: rest) sep

/-- `strings.TrimRight(s, ":")` of the standard library: `s` without its
trailing colons. -/
def TrimRightColon (s : String) : String :=
  ⟨s.data.rdropWhile (fun c => c = ':')⟩

/-- `extractCode` of `helpers.go`. -/
def extractCode (code : String) : String :=
  TrimRightColon code

/-- `isCode` of `helpers.go`: whether the last byte of `code` is 58, the
colon.  On the empty string the index `len(code)-1` is out of range and the
program panics (`none`). -/
def isCode (code : String) : Option Bool :=
  match code.data.getLast? with
  | none => none
  | some c => some (decide (c.val = 58))

/-- The body of the loop of `Unmarshal` up to the call of `Wrap`: the `Error`
filled in from the fields of one line (`some (some err)`), `continue` for a
line that has neither 2 nor 3 fields (`some none`), or the panic of `isCode`
(`none`). -/
def parseLine (e : String) : Option (Option Error) :=
  match Split e ' ' with
  | [se0, se1] => some (some { Location := se0, Msg := se1, Code := "" })
  | [se0, se1, se2] =>
    match isCode se1 with
    | none => none
    | some true => some (some { Location := se0, Code := extractCode se1, Msg := se2 })
    | some false => some (some { Location := se0, Code := "", Msg := Join [se1, se2] " " })
  | _ => some none

/-- One turn of the loop of `Unmarshal` on the line `e`, from the value of
`finalError` before it: the parsed `Error` is wrapped over `finalError`, a
skipped line leaves it as it is. -/
def unmarshalStep (g : ErrorGo) (e : String) (finalError : GoError) : Option GoError :=
  match parseLine e with
  | none => none
  | some none => some finalError
  | some (some err) => some (Wrap g finalError (.error (.err err)))

/-- The loop of `Unmarshal` over the lines: the index runs from the last line
down to the first, starting from a nil `finalError`; a panic ends the run. -/
def unmarshalLines (g : ErrorGo) (errors : List String) : Option GoError :=
  errors.foldr (fun e acc => acc.bind (unmarshalStep g e)) (some .nil)

/-- `Unmarshal` of `helpers.go`; `none` is a run-time panic. -/
def Unmarshal (g : ErrorGo) (data : String) : Option GoError :=
  unmarshalLines g (Split data '\n')

/-! ### Definitions used to state the properties -/

/-- The `*Error` values reachable from an error through the `current` and
`previous` links of wrapped errors. -/
def reachable : GoError → List Error
  | .err e => [e]
  | .withError previous current => reachable current ++ reachable previous
  | _ => []

/-- When an `*Error` matches a target: on the messages when both codes are
empty, on the codes otherwise. -/
def Matches (e target : Error) : Prop :=
  (e.Code = "" ∧ target.Code = "" ∧ e.Msg = target.Msg) ∨
  (¬ (e.Code = "" ∧ target.Code = "") ∧ e.Code = target.Code)

/-- The contract of the absent constructor that the table of
`getNewErrorTestCase` shows for one argument and for two arguments with a code
free of spaces: the arguments become `Msg`, respectively `Code` and `Msg`. -/
def KeepsArgs (g : ErrorGo) : Prop :=
  (∀ level msg, (g.newWithLevel level [msg]).Code = "" ∧
    (g.newWithLevel level [msg]).Msg = msg) ∧
  (∀ level code msg, ' ' ∉ code.data →
    (g.newWithLevel level [code, msg]).Code = code ∧
    (g.newWithLevel level [code, msg]).Msg = msg)

/-- The chain a test builds: the items are wrapped one after another,
starting from a nil error (the loop of `TestTop` and `TestWrap`). -/
def wrapAll (g : ErrorGo) (items : List WrapArg) : GoError :=
  items.foldl (Wrap g) .nil

/-- Go's `len(strings.Split(s, "\n"))`: one more than the number of newline
characters of `s`. -/
def lineCount (s : String) : Nat :=
  s.data.count '\n' + 1

/-- A sample text for an error: "location code: msg" for an `*Error`, the
current error above the previous one for a wrapper. -/
def sampleText : GoError → String
  | .nil => ""
  | .err e => e.Location ++ " " ++ e.Code ++ ": " ++ e.Msg
  | .withError previous current =>
    match previous with
    | .nil => sampleText current
    | _ => sampleText current ++ "\n" ++ sampleText previous
  | .foreign text => text

/-- A stand-in for `error.go`, used to instantiate the parameters at concrete
values: the constructor keeps its arguments, `top` prints "code: msg", and
the texts are the sample texts. -/
def sampleGo : ErrorGo where
  newWithLevel _ args :=
    match args with
    | [msg] => ⟨"", msg, "loc"⟩
    | [code, msg] => ⟨code, msg, "loc"⟩
    | _ => ⟨"incorrect_usage", "", "loc"⟩
  top e := e.Code ++ ": " ++ e.Msg
  errorText e := sampleText (.err e)
  withErrorText previous current := sampleText (.withError previous current)

/-- The chain of the one test case of `getWrapTopTestCases`, for the `*Error`
that `New("500", ...)` returns: that error, then nil, then `errors.New("")`
of the standard library. -/
def testChain (g : ErrorGo) (e500 : Error) : GoError :=
  wrapAll g [.error (.err e500), .nil, .error (.foreign "")]

/-- The text `expectedTopMessage` of that test case. -/
def expectedTopMessage : String :=
  "incorrect_usage: you should pass either error or message to properly wrap the error!"

/-- The number of fields of a line: `len(strings.Split(e, " "))`. -/
def fieldCount (e : String) : Nat :=
  (Split e ' ').length

/-- A line that `Unmarshal` skips: it has neither 2 nor 3 fields. -/
@[reducible] def Skipped (e : String) : Prop :=
  fieldCount e ≠ 2 ∧ fieldCount e ≠ 3

/-- The chain of wrappers over a list of errors, the first error outermost and
a nil error under the last one. -/
def chainOf : List Error → GoError
  | [] => .nil
  | e :: rest => .withError (chainOf rest) (.err e)

/-- The field `previous` of a wrapper, followed `i` times (nil once the chain
is left). -/
def previousN : Nat → GoError → GoError
  | 0, err => err
  | i + 1, .withError previous _ => previousN i previous
  | _ + 1, _ => .nil

/-- The field `current` of a wrapper. -/
def currentOf : GoError → Option GoError
  | .withError _ current => some current
  | _ => none

end Errors

/-! # Theorems -/

namespace Sdk

/-! ## Bit counting and the reduction -/

theorem countOnesAux_eq_card (k n : Nat) :
    countOnesAux k n = ((Finset.range k).filter (fun i => n.testBit i = true)).card := by
  induction k generalizing n with
  | zero => simp [countOnesAux]
  | succ k ih =>
    rw [countOnesAux, ih, Finset.card_filter, Finset.card_filter, Finset.sum_range_succ']
    simp only [Nat.testBit_succ, Nat.testBit_zero, decide_eq_true_eq]
    rcases Nat.mod_two_eq_zero_or_one n with h | h <;> simp [h, Nat.add_comm]

theorem countOnes_eq_card (found : Nat) : countOnes found = (setBits found).card := by
  rw [countOnes, countOnesAux_eq_card, setBits]
  congr 1
  apply Finset.filter_congr
  intro i hi
  simp only [Finset.mem_range] at hi
  simp [Nat.testBit_mod_two_pow, hi]

theorem setBits_or (found b : Nat) : setBits found ⊆ setBits (found ||| b) := by
  intro i
  simp only [setBits, Finset.mem_filter, Nat.testBit_or, Bool.or_eq_true]
  tauto

theorem countOnes_le_or (found b : Nat) : countOnes found ≤ countOnes (found ||| b) := by
  rw [countOnes_eq_card, countOnes_eq_card]
  exact Finset.card_le_card (setBits_or found b)

theorem testBit_bit32 (j i : Nat) :
    (bit32 j).testBit i = (decide (i < maskBits) && decide (j = i)) := by
  simp [bit32, Nat.shiftLeft_eq, Nat.testBit_mod_two_pow, Nat.testBit_two_pow]

theorem reduceOutcomes_snoc (l : List (Nat × Bool)) (a : Nat × Bool) :
    reduceOutcomes (l ++ [a]) = recordOutcome (reduceOutcomes l) a := by
  simp [reduceOutcomes, List.foldl_append]

/-- Bit `i` of the reduced mask: set exactly when `i` is below the width and
some arrival with index `i` was accepted. -/
theorem testBit_reduceOutcomes (l : List (Nat × Bool)) (i : Nat) :
    (reduceOutcomes l).testBit i =
      (decide (i < maskBits) && l.any (fun p => p.2 && decide (p.1 = i))) := by
  induction l using List.reverseRecOn with
  | nil => simp [reduceOutcomes]
  | append_singleton l a ih =>
    rw [reduceOutcomes_snoc, recordOutcome]
    rcases a with ⟨j, b⟩
    cases b
    · simp [ih]
    · simp only [if_true, Nat.testBit_mod_two_pow, Nat.testBit_or, ih, testBit_bit32,
        List.any_append, List.any_cons, List.any_nil, Bool.true_and, Bool.or_false]
      cases decide (i < maskBits) <;> simp [maskBits]

/-! ## Consensus tracker -/

/-- C4: `matchesConsensus` is true exactly when the number of set bits of
`found` is at least the threshold; a count equal to the threshold satisfies
consensus; setting one more bit never turns a true verdict into a false one. -/
theorem matchesConsensus_iff (found threshold i : Nat) :
    (matchesConsensus found threshold = true ↔ threshold ≤ (setBits found).card) ∧
    matchesConsensus found (setBits found).card = true ∧
    (matchesConsensus found threshold = true →
      matchesConsensus (found ||| 1 <<< i) threshold = true) := by
  refine ⟨?_, ?_, fun h => ?_⟩
  · simp [matchesConsensus, countOnes_eq_card]
  · simp [matchesConsensus, countOnes_eq_card]
  · simp only [matchesConsensus, decide_eq_true_eq] at h ⊢
    exact le_trans h (countOnes_le_or _ _)

/-- Witness of C4: three set bits against a threshold of three, then bit 3 is
added. -/
theorem matchesConsensus_iff_witness :
    matchesConsensus 0x7 3 = true ∧ matchesConsensus (0x7 ||| 1 <<< 3) 3 = true :=
  ⟨by decide, (matchesConsensus_iff 0x7 3 3).2.2 (by decide)⟩

/-- C9: the pair `(found, matchesConsensus)` is the same for any two orders of
arrival of the same tagged outcomes. -/
theorem consensusOf_perm (threshold : Nat) (l₁ l₂ : List (Nat × Bool)) (h : l₁.Perm l₂) :
    consensusOf threshold l₁ = consensusOf threshold l₂ := by
  have hfound : reduceOutcomes l₁ = reduceOutcomes l₂ := by
    apply Nat.eq_of_testBit_eq
    intro i
    rw [testBit_reduceOutcomes, testBit_reduceOutcomes]
    congr 1
    rw [Bool.eq_iff_iff]
    simp only [List.any_eq_true]
    exact ⟨fun ⟨x, hx, hp⟩ => ⟨x, h.mem_iff.1 hx, hp⟩, fun ⟨x, hx, hp⟩ => ⟨x, h.mem_iff.2 hx, hp⟩⟩
  simp [consensusOf, hfound]

/-- Witness of C9: three outcomes fed in two different orders. -/
theorem consensusOf_perm_witness :
    consensusOf 2 [(0, true), (1, false), (2, true)]
      = consensusOf 2 [(2, true), (0, true), (1, false)] :=
  consensusOf_perm 2 _ _ (by decide)

end Sdk

namespace Sdk

/-! ## PriceRange and the gate -/

/-- C1: `IsValid` is true exactly when `Min >= 0` and `Min <= Max`; it is true
for `Min = Max = 10` and for `Min = 0, Max = 50`, false for `Min = 10, Max = 5`
and for `Min = -5, Max = 10`. -/
theorem priceRange_isValid_iff :
    (∀ pr : PriceRange, pr.IsValid = true ↔ (0 ≤ pr.Min ∧ pr.Min ≤ pr.Max)) ∧
    PriceRange.IsValid ⟨10, 10⟩ = true ∧ PriceRange.IsValid ⟨0, 50⟩ = true ∧
    PriceRange.IsValid ⟨10, 5⟩ = false ∧ PriceRange.IsValid ⟨-5, 10⟩ = false := by
  refine ⟨fun pr => ?_, by decide, by decide, by decide, by decide⟩
  simp [PriceRange.IsValid]

/-- C2: `isInitialized` is true exactly when the process-wide flag and the
allocation's flag are both true, and false in the three other combinations. -/
theorem isInitialized_iff_both (sdkInitialized : Bool) (a : Allocation) :
    (a.isInitialized sdkInitialized = true ↔
      (sdkInitialized = true ∧ a.initialized = true)) ∧
    ({ a with initialized := true }).isInitialized true = true ∧
    ({ a with initialized := true }).isInitialized false = false ∧
    ({ a with initialized := false }).isInitialized true = false ∧
    ({ a with initialized := false }).isInitialized false = false := by
  simp [Allocation.isInitialized]

/-- C3: a file operation run while the gate is closed returns the "not
initialized" error whatever its arguments and leaves the whole state as it was:
no blobber call is logged, no event is delivered, the allocation is unchanged. -/
theorem run_notInitialized (c : Collaborators) (op : FileOp) (w : World)
    (h : w.ready = false) : op.run c w = (some SdkError.NotInitialized, w) := by
  cases op <;> simp [FileOp.run, pathOp, uploadOrUpdateFile, downloadFile, h]

/-- Witness of C3: a delete on an allocation whose own flag is off. -/
theorem run_notInitialized_witness :
    (world4 true false 3).ready = false ∧
    (FileOp.DeleteFile "/1.txt").run (sampleCollab [0, 1, 2, 3]) (world4 true false 3)
      = (some SdkError.NotInitialized, world4 true false 3) :=
  ⟨by decide, run_notInitialized _ _ _ (by decide)⟩

/-- C8: `RepairRequired` on an allocation that is not initialized returns
`found = 0`, `matchesConsensus = false`, no reference and the "not initialized"
error, for every remote path, and asks no blobber. -/
theorem repairRequired_notInitialized (c : Collaborators) (remotePath : String) (w : World)
    (h : w.ready = false) :
    RepairRequired c remotePath w = (⟨0, false, none, some SdkError.NotInitialized⟩, w) := by
  simp [RepairRequired, h]

/-- Witness of C8: the process-wide flag is off. -/
theorem repairRequired_notInitialized_witness :
    (world4 false true 3).ready = false ∧
    RepairRequired (sampleCollab [0, 1, 2, 3]) "/" (world4 false true 3)
      = (⟨0, false, none, some SdkError.NotInitialized⟩, world4 false true 3) :=
  ⟨by decide, repairRequired_notInitialized _ _ _ (by decide)⟩

/-- C10: on an initialized allocation, an operation whose remote path does not
start with a slash (the empty path included) returns an error and leaves the
state as it was, so no blobber request has been issued. -/
theorem run_invalidRemotePath (c : Collaborators) (op : FileOp) (w : World) (path : String)
    (hready : w.ready = true) (hop : op.remotePath? = some path)
    (hpath : path.data.head? ≠ some '/') :
    (op.run c w).1 ≠ none ∧ (op.run c w).2 = w := by
  have habs : isRemoteAbs path = false := by simpa [isRemoteAbs] using hpath
  cases op <;> simp only [FileOp.remotePath?, Option.some.injEq, reduceCtorEq] at hop <;>
    subst hop
  case uploadOrUpdateFile l p u t e r =>
    simp only [FileOp.run, uploadOrUpdateFile, hready, habs]
    rcases c.localFile l with _ | ⟨hash, size⟩ <;> simp
  all_goals simp [FileOp.run, pathOp, hready, habs]

/-- Witness of C10: a copy from the relative path "abc". -/
theorem run_invalidRemotePath_witness :
    ((FileOp.CopyObject "abc" "/1.txt").run (sampleCollab [0, 1, 2, 3]) (world4 true true 3)).1
        ≠ none ∧
    ((FileOp.CopyObject "abc" "/1.txt").run (sampleCollab [0, 1, 2, 3]) (world4 true true 3)).2
        = world4 true true 3 :=
  run_invalidRemotePath _ _ _ "abc" (by decide) rfl (by decide)

end Sdk

namespace Sdk

/-! ## Repair evaluator -/

theorem repairVerdict_found (threshold : Nat) (outcomes : List (Nat × Outcome)) :
    (repairVerdict threshold outcomes).found = reduceOutcomes (refArrivals outcomes) := by
  unfold repairVerdict
  cases representative outcomes <;> rfl

theorem hasRef_eq_isSome (o : Outcome) : o.hasRef = o.fileRef.isSome := by
  cases o <;> rfl

/-- No reference is selected exactly when no blobber of the allocation
reports the file. -/
theorem representative_eq_none_iff (c : Collaborators) (a : Allocation) (remotePath : String) :
    representative (fetchAll c a ⟨OpKind.fileMeta, remotePath, ""⟩) = none ↔
      ∀ i, i < a.Blobbers.length → reports c remotePath i = false := by
  simp [representative, fetchAll, reports, hasRef_eq_isSome]

/-- Bit `i` of `found` after the reference query: set exactly when `i` is
below the width of the mask, is the index of a blobber of the allocation, and
that blobber reports the file. -/
theorem testBit_found (c : Collaborators) (a : Allocation) (remotePath : String) (i : Nat) :
    (reduceOutcomes (refArrivals (fetchAll c a ⟨OpKind.fileMeta, remotePath, ""⟩))).testBit i =
      (decide (i < maskBits) && (decide (i < a.Blobbers.length) && reports c remotePath i)) := by
  rw [testBit_reduceOutcomes]
  congr 1
  rw [Bool.eq_iff_iff]
  simp only [refArrivals, fetchAll, List.map_map, List.any_eq_true, List.mem_map, List.mem_range,
    Function.comp, Bool.and_eq_true, decide_eq_true_eq, reports]
  constructor
  · rintro ⟨_, ⟨j, hj, rfl⟩, h, rfl⟩
    exact ⟨hj, h⟩
  · rintro ⟨hi, h⟩
    exact ⟨_, ⟨i, hi, rfl⟩, h, rfl⟩

theorem found_eq_zero (c : Collaborators) (a : Allocation) (remotePath : String)
    (h : ∀ i, i < a.Blobbers.length → reports c remotePath i = false) :
    reduceOutcomes (refArrivals (fetchAll c a ⟨OpKind.fileMeta, remotePath, ""⟩)) = 0 := by
  apply Nat.eq_of_testBit_eq
  intro i
  rw [testBit_found, Nat.zero_testBit]
  by_cases hi : i < a.Blobbers.length
  · simp [h i hi]
  · simp [hi]

/-- The count of set bits of `found` never exceeds the number of blobbers that
report the file. -/
theorem countOnes_found_le (c : Collaborators) (a : Allocation) (remotePath : String) :
    countOnes (reduceOutcomes (refArrivals (fetchAll c a ⟨OpKind.fileMeta, remotePath, ""⟩))) ≤
      ((Finset.range a.Blobbers.length).filter (fun i => reports c remotePath i = true)).card := by
  rw [countOnes_eq_card]
  apply Finset.card_le_card
  intro i
  simp only [setBits, Finset.mem_filter, Finset.mem_range, testBit_found, Bool.and_eq_true,
    decide_eq_true_eq]
  tauto

end Sdk

namespace Sdk

theorem repairRequired_ready (c : Collaborators) (remotePath : String) (w : World)
    (hready : w.ready = true) :
    (RepairRequired c remotePath w).1 =
      repairVerdict w.alloc.consensusThresh
        (fetchAll c w.alloc ⟨OpKind.fileMeta, remotePath, ""⟩) := by
  simp [RepairRequired, hready]

/-- When some blobber of the allocation reports the file, a reference is
returned without an error and the boolean is the tracker's verdict on
`found`. -/
theorem repairVerdict_of_report (c : Collaborators) (a : Allocation) (remotePath : String)
    (threshold j : Nat) (hj : j < a.Blobbers.length) (hrep : reports c remotePath j = true) :
    ∃ r, repairVerdict threshold (fetchAll c a ⟨OpKind.fileMeta, remotePath, ""⟩) =
      ⟨reduceOutcomes (refArrivals (fetchAll c a ⟨OpKind.fileMeta, remotePath, ""⟩)),
        matchesConsensus
          (reduceOutcomes (refArrivals (fetchAll c a ⟨OpKind.fileMeta, remotePath, ""⟩)))
          threshold,
        some r, none⟩ := by
  have hne : representative (fetchAll c a ⟨OpKind.fileMeta, remotePath, ""⟩) ≠ none := by
    intro hnone
    have := (representative_eq_none_iff c a remotePath).1 hnone j hj
    simp [hrep] at this
  obtain ⟨r, hr⟩ := Option.ne_none_iff_exists'.1 hne
  exact ⟨r, by simp [repairVerdict, hr]⟩

/-- C5: for an allocation of four blobbers, bit `i` of `found` is set exactly
for the blobbers at index `i` that report the file; when exactly blobbers 0, 1
and 2 report it and the threshold is at most 3, `found = 0x7` and
`matchesConsensus = true` with no error; when only blobbers 0 and 1 report it
and the threshold is above 2, `found = 0x3` and `matchesConsensus = false`. -/
theorem repairRequired_four (c : Collaborators) (remotePath : String) (w : World)
    (hready : w.ready = true) (hlen : w.alloc.Blobbers.length = 4) :
    (∀ i, (RepairRequired c remotePath w).1.found.testBit i =
      (decide (i < 4) && reports c remotePath i)) ∧
    (reports c remotePath 0 = true → reports c remotePath 1 = true →
      reports c remotePath 2 = true → reports c remotePath 3 = false →
      w.alloc.consensusThresh ≤ 3 →
      (RepairRequired c remotePath w).1.found = 0x7 ∧
      (RepairRequired c remotePath w).1.matchesConsensus = true ∧
      (RepairRequired c remotePath w).1.err = none) ∧
    (reports c remotePath 0 = true → reports c remotePath 1 = true →
      reports c remotePath 2 = false → reports c remotePath 3 = false →
      2 < w.alloc.consensusThresh →
      (RepairRequired c remotePath w).1.found = 0x3 ∧
      (RepairRequired c remotePath w).1.matchesConsensus = false) := by
  have hbit : ∀ i, (RepairRequired c remotePath w).1.found.testBit i =
      (decide (i < 4) && reports c remotePath i) := by
    intro i
    rw [repairRequired_ready c remotePath w hready, repairVerdict_found, testBit_found, hlen]
    by_cases hi : i < 4
    · have : i < maskBits := by simp only [maskBits]; omega
      simp [hi, this]
    · simp [hi]
  refine ⟨hbit, fun h0 h1 h2 h3 hthr => ?_, fun h0 h1 h2 h3 hthr => ?_⟩
  · have hfound : (RepairRequired c remotePath w).1.found = 0x7 := by
      apply Nat.eq_of_testBit_eq
      intro i
      rw [hbit, show (0x7 : Nat) = 2 ^ 3 - 1 by norm_num, Nat.testBit_two_pow_sub_one]
      rcases i with _ | _ | _ | _ | i
      · simp [h0]
      · simp [h1]
      · simp [h2]
      · simp [h3]
      · have e1 : ¬ (i + 1 + 1 + 1 + 1 < 4) := by omega
        have e2 : ¬ (i + 1 + 1 + 1 + 1 < 3) := by omega
        simp only [e1, e2, decide_False, Bool.false_and]
    obtain ⟨r, hr⟩ := repairVerdict_of_report c w.alloc remotePath
      w.alloc.consensusThresh 0 (by omega) h0
    rw [repairRequired_ready c remotePath w hready] at hfound ⊢
    rw [repairVerdict_found] at hfound
    rw [hr, hfound]
    refine ⟨rfl, ?_, rfl⟩
    have h3 : countOnes 0x7 = 3 := by decide
    simp [matchesConsensus, h3, hthr]
  · have hfound : (RepairRequired c remotePath w).1.found = 0x3 := by
      apply Nat.eq_of_testBit_eq
      intro i
      rw [hbit, show (0x3 : Nat) = 2 ^ 2 - 1 by norm_num, Nat.testBit_two_pow_sub_one]
      rcases i with _ | _ | _ | _ | i
      · simp [h0]
      · simp [h1]
      · simp [h2]
      · simp [h3]
      · have e1 : ¬ (i + 1 + 1 + 1 + 1 < 4) := by omega
        have e2 : ¬ (i + 1 + 1 + 1 + 1 < 2) := by omega
        simp only [e1, e2, decide_False, Bool.false_and]
    obtain ⟨r, hr⟩ := repairVerdict_of_report c w.alloc remotePath
      w.alloc.consensusThresh 0 (by omega) h0
    rw [repairRequired_ready c remotePath w hready] at hfound ⊢
    rw [repairVerdict_found] at hfound
    rw [hr, hfound]
    refine ⟨rfl, ?_⟩
    have h3 : countOnes 0x3 = 2 := by decide
    simp [matchesConsensus, h3, hthr]

/-- Witness of C5: blobbers 0, 1 and 2 hold the file, the threshold is 3. -/
theorem repairRequired_four_witness :
    (RepairRequired (sampleCollab [0, 1, 2]) "/" (world4 true true 3)).1.found = 0x7 ∧
    (RepairRequired (sampleCollab [0, 1, 2]) "/" (world4 true true 3)).1.matchesConsensus
      = true ∧
    (RepairRequired (sampleCollab [0, 1, 2]) "/" (world4 true true 3)).1.err = none :=
  (repairRequired_four (sampleCollab [0, 1, 2]) "/" (world4 true true 3)
    (by decide) (by decide)).2.1 (by decide) (by decide) (by decide) (by decide) (by decide)

/-- C7: when no blobber of the allocation reports the file, `RepairRequired`
returns `found = 0`, `matchesConsensus = false`, no reference and the "file not
found" error; when at least one blobber reports it and fewer blobbers than the
threshold do, it returns no error and `matchesConsensus = false`. -/
theorem repairRequired_notFound_or_below (c : Collaborators) (remotePath : String) (w : World)
    (hready : w.ready = true) :
    ((∀ i, i < w.alloc.Blobbers.length → reports c remotePath i = false) →
      (RepairRequired c remotePath w).1 = ⟨0, false, none, some SdkError.RemoteNotFound⟩) ∧
    ((∃ i, i < w.alloc.Blobbers.length ∧ reports c remotePath i = true) →
      ((Finset.range w.alloc.Blobbers.length).filter
        (fun i => reports c remotePath i = true)).card < w.alloc.consensusThresh →
      (RepairRequired c remotePath w).1.err = none ∧
      (RepairRequired c remotePath w).1.matchesConsensus = false) := by
  rw [repairRequired_ready c remotePath w hready]
  constructor
  · intro hall
    have hnone := (representative_eq_none_iff c w.alloc remotePath).2 hall
    simp [repairVerdict, hnone, found_eq_zero c w.alloc remotePath hall]
  · rintro ⟨j, hj, hrep⟩ hlt
    obtain ⟨r, hr⟩ := repairVerdict_of_report c w.alloc remotePath
      w.alloc.consensusThresh j hj hrep
    rw [hr]
    refine ⟨rfl, ?_⟩
    have hle := countOnes_found_le c w.alloc remotePath
    simp only [matchesConsensus, decide_eq_false_iff_not, not_le]
    omega

/-- Witness of C7: four blobbers none of which holds the file. -/
theorem repairRequired_notFound_or_below_witness :
    (RepairRequired (sampleCollab []) "/x.txt" (world4 true true 3)).1
      = ⟨0, false, none, some SdkError.RemoteNotFound⟩ :=
  (repairRequired_notFound_or_below (sampleCollab []) "/x.txt" (world4 true true 3)
    (by decide)).1 (by decide)

end Sdk

namespace Sdk

/-! ## The test table of `RepairRequired` -/

/-- The rows of the test table that expect no error cannot all be met by the
threshold rule, whatever the threshold: the row with `found = 0xf` expects
`false` and the row with `found = 0x7` expects `true`. -/
theorem repairRequiredTests_not_threshold (threshold : Nat) :
    ¬ ∀ t ∈ repairRequiredTests, t.wantErr = false →
        matchesConsensus t.wantFound threshold = t.wantMatchesConsensus := by
  intro h
  have h1 := h ⟨"Test_Not_Repair_Required_Success", "/x.txt", 0xf, false, false⟩
    (by simp [repairRequiredTests]) rfl
  have h3 := h ⟨"Test_Repair_Required_Success", "/", 0x7, true, false⟩
    (by simp [repairRequiredTests]) rfl
  have c4 : countOnes 0xf = 4 := by decide
  have c3 : countOnes 0x7 = 3 := by decide
  simp only [matchesConsensus, c4, c3, decide_eq_false_iff_not, decide_eq_true_eq] at h1 h3
  omega

/-- The rows of the test table that expect an error expect `found = 0` and a
false boolean, as `RepairRequired` returns them. -/
theorem repairRequiredTests_error_rows :
    ∀ t ∈ repairRequiredTests, t.wantErr = true →
      t.wantFound = 0 ∧ t.wantMatchesConsensus = false := by
  decide

end Sdk

/-! # Package `errors` -/

namespace Errors

/-! ## Helper lemmas -/

/-- The equations of `Is` are the branches of the source: first the type test
of `isError`, then the one of `isWithError`, then `false`. -/
theorem is_eq_source (actual : GoError) (target : Error) :
    Is actual target =
      match isError actual with
      | some actualError =>
        if actualError.Code = "" ∧ target.Code = "" then
          decide (actualError.Msg = target.Msg)
        else decide (actualError.Code = target.Code)
      | none =>
        match isWithError actual with
        | some (previous, current) => Is current target || Is previous target
        | none => false := by
  cases actual <;> simp [Is, isError, isWithError]

theorem is_err_iff (e target : Error) : Is (.err e) target = true ↔ Matches e target := by
  unfold Is Matches
  by_cases h : e.Code = "" ∧ target.Code = ""
  · simp [h]
  · simp only [h, if_false, decide_eq_true_eq, not_false_eq_true, true_and]
    constructor
    · intro hc
      exact Or.inr hc
    · rintro (⟨h1, h2, _⟩ | hc)
      · exact absurd ⟨h1, h2⟩ h
      · exact hc

theorem wrap_eq (g : ErrorGo) (previous : GoError) (current : WrapArg) :
    ∃ cur, Wrap g previous current = .withError previous cur := by
  exact ⟨_, rfl⟩

theorem trimSpace_eq_empty_iff (s : String) :
    TrimSpace s = "" ↔ s.data.all isSpace = true := by
  have hstr : ∀ l : List Char, (String.mk l = "") ↔ l = [] := by
    intro l
    constructor
    · intro h
      have := congrArg String.data h
      simpa using this
    · rintro rfl
      rfl
  rw [TrimSpace, hstr, List.reverse_eq_nil_iff, List.dropWhile_eq_nil_iff, List.all_eq_true]
  constructor
  · intro h x hx
    by_contra hns
    have hne : ∀ y ∈ s.data.dropWhile isSpace, isSpace y = true := by
      intro y hy
      exact h y (List.mem_reverse.2 hy)
    have hnil := List.dropWhile_eq_nil_iff.2 hne
    rw [List.dropWhile_idempotent] at hnil
    exact hns (List.dropWhile_eq_nil_iff.1 hnil x hx)
  · intro h x hx
    have hx' := List.mem_reverse.1 hx
    exact h x ((List.dropWhile_sublist _).subset hx')

end Errors

namespace Errors

/-! ## Is -/

/-- C11: `Is(actual, target)` is true exactly when some `*Error` reachable from
`actual` through the `current` and `previous` links matches the target (on the
messages when both codes are empty, on the codes otherwise); it is false for
nil and for a foreign error. -/
theorem is_iff_reachable (actual : GoError) (target : Error) :
    (Is actual target = true ↔ ∃ e ∈ reachable actual, Matches e target) ∧
    Is .nil target = false ∧ (∀ text, Is (.foreign text) target = false) := by
  refine ⟨?_, rfl, fun _ => rfl⟩
  induction actual with
  | nil => simp [Is, reachable]
  | err e => simp [reachable, is_err_iff]
  | withError previous current ihp ihc =>
    simp only [Is, Bool.or_eq_true, ihp, ihc, reachable, List.mem_append]
    constructor
    · rintro (⟨e, he, hm⟩ | ⟨e, he, hm⟩)
      · exact ⟨e, Or.inl he, hm⟩
      · exact ⟨e, Or.inr he, hm⟩
    · rintro ⟨e, he | he, hm⟩
      · exact Or.inl ⟨e, he, hm⟩
      · exact Or.inr ⟨e, he, hm⟩
  | foreign text => simp [Is, reachable]

/-- C17: wrapping never hides an error of the chain: if `Is(p, t)` holds then
`Is(Wrap(p, c), t)` holds for every second argument `c`, and for a non-nil
error `c`, `Is(Wrap(p, c), t) = (Is(c, t) || Is(p, t))`. -/
theorem is_wrap (g : ErrorGo) (p : GoError) (t : Error) (c : WrapArg) (c' : GoError) :
    (Is p t = true → Is (Wrap g p c) t = true) ∧
    (c' ≠ .nil → Is (Wrap g p (.error c')) t = (Is c' t || Is p t)) := by
  constructor
  · intro hp
    obtain ⟨cur, hcur⟩ := wrap_eq g p c
    simp [hcur, Is, hp]
  · intro hc
    cases c' <;> simp_all [Wrap, Is]

/-- Witness of C17: an error with code "404" under a wrapped message. -/
theorem is_wrap_witness :
    Is (Wrap sampleGo (.err ⟨"404", "gone", ""⟩) (.string "while reading"))
      ⟨"404", "", ""⟩ = true :=
  (is_wrap sampleGo (.err ⟨"404", "gone", ""⟩) ⟨"404", "", ""⟩ (.string "while reading")
    .nil).1 (by decide)

/-! ## Top and Wrap -/

/-- C12: `Top` of a wrapper is the top-level text of its current error,
whatever lies beneath: for an `*Error` `e`, `Top(Wrap(p, e))` and `Top(e)` are
both `e.top()`; for a wrapped error `w`, `Top(Wrap(p, w)) = Top(w)`, which is
the `top()` of the current error of `w` when that is an `*Error` and the
`Error()` text of `w` itself when it is a foreign error; none of them depends
on `p`. -/
theorem top_wrap (g : ErrorGo) (p : GoError) (e : Error) (pw cw : GoError) :
    Top g (Wrap g p (.error (.err e))) = some (g.top e) ∧
    Top g (.err e) = some (g.top e) ∧
    Top g (Wrap g p (.error (.err e))) = Top g (.err e) ∧
    Top g (Wrap g p (.error (.withError pw cw))) = Top g (.withError pw cw) ∧
    Top g (Wrap g p (.error (.withError pw (.err e)))) = some (g.top e) ∧
    (∀ text, Top g (Wrap g p (.error (.withError pw (.foreign text)))) =
      some (g.withErrorText pw (.foreign text))) := by
  refine ⟨?_, ?_, ?_, ?_, ?_, fun text => ?_⟩ <;> simp [Wrap, Top, GoError.Error]

/-- At the sample texts, `Top` of an `*Error` wrapped over another one is the
"code: msg" line of the upper error. -/
theorem top_wrap_sample :
    Top sampleGo (Wrap sampleGo (.err ⟨"500", "boom", "f.go"⟩) (.error (.err ⟨"404", "gone", "g.go"⟩)))
      = some "404: gone" := by
  decide

/-- C13: on the chain of the test case (an `*Error`, then nil, then
`errors.New("")`), `Top` takes the `default` branch of its inner switch and
returns the `Error()` text of the whole chain. -/
theorem top_testChain (g : ErrorGo) (e500 : Error) :
    Top g (testChain g e500) = GoError.Error g (testChain g e500) ∧
    GoError.Error g (testChain g e500) =
      some (g.withErrorText
        (.withError (.withError .nil (.err e500)) (.err (invalidWrap g))) (.foreign "")) := by
  constructor <;> rfl

/-- The two tests over that chain cannot both pass: when its `Error()` text
splits into three lines, as `TestWrap` requires, `Top` does not return the
message `TestTop` expects. -/
theorem top_testChain_ne_expected (g : ErrorGo) (e500 : Error) (text : String)
    (htext : GoError.Error g (testChain g e500) = some text) (hlines : lineCount text = 3) :
    Top g (testChain g e500) ≠ some expectedTopMessage := by
  rw [(top_testChain g e500).1, htext]
  intro h
  have h1 : lineCount expectedTopMessage = 1 := by decide
  rw [Option.some.inj h] at hlines
  omega

/-- The conflict at the sample texts: the chain prints on three lines and `Top`
returns all three. -/
theorem top_testChain_ne_expected_witness :
    Top sampleGo (testChain sampleGo ⟨"500", "This is a very big error! Beware of it!", "loc"⟩)
      ≠ some expectedTopMessage :=
  top_testChain_ne_expected sampleGo _ _ rfl (by decide)

/-- C14: when the second argument of `Wrap` is nil, a string that is empty or
only white space, or a value that is neither an error nor a string, the result
keeps `p` as its previous error and has as current error the `*Error` of
`invalidWrap`, with code "incorrect_usage" and the usage message. -/
theorem wrap_invalid (g : ErrorGo) (hg : KeepsArgs g) (p : GoError) (c : WrapArg)
    (hc : c = .nil ∨ c = .other ∨ ∃ s, c = .string s ∧ s.data.all isSpace = true) :
    Wrap g p c = .withError p (.err (invalidWrap g)) ∧
    (invalidWrap g).Code = "incorrect_usage" ∧
    (invalidWrap g).Msg =
      "you should pass either error or message to properly wrap the error!" := by
  refine ⟨?_, hg.2 4 _ _ (by decide)⟩
  rcases hc with rfl | rfl | ⟨s, rfl, hs⟩
  · rfl
  · rfl
  · simp [Wrap, (trimSpace_eq_empty_iff s).2 hs]

theorem sampleGo_keepsArgs : KeepsArgs sampleGo :=
  ⟨fun _ _ => ⟨rfl, rfl⟩, fun _ _ _ _ => ⟨rfl, rfl⟩⟩

/-- Witness of C14: a string of two blanks as the second argument. -/
theorem wrap_invalid_witness :
    Wrap sampleGo (.foreign "disk full") (.string "  ")
      = .withError (.foreign "disk full") (.err (invalidWrap sampleGo)) ∧
    (invalidWrap sampleGo).Code = "incorrect_usage" ∧
    (invalidWrap sampleGo).Msg =
      "you should pass either error or message to properly wrap the error!" :=
  wrap_invalid sampleGo sampleGo_keepsArgs (.foreign "disk full") (.string "  ")
    (Or.inr (Or.inr ⟨"  ", rfl, by decide⟩))

/-- C15: for a non-nil error `c`, `Wrap(p, c)` is the wrapper whose previous
is `p` and whose current is `c`, unchanged; for a string `s` that is not blank,
the current error is the `*Error` the constructor builds from `s`, with `Msg`
equal to `s` and an empty `Code`. -/
theorem wrap_keeps (g : ErrorGo) (hg : KeepsArgs g) (p c : GoError) (s : String)
    (hc : c ≠ .nil) (hs : s.data.all isSpace = false) :
    Wrap g p (.error c) = .withError p c ∧
    Wrap g p (.string s) = .withError p (.err (g.newWithLevel 3 [s])) ∧
    (g.newWithLevel 3 [s]).Msg = s ∧ (g.newWithLevel 3 [s]).Code = "" := by
  have hne : TrimSpace s ≠ "" := by
    rw [Ne, trimSpace_eq_empty_iff, hs]
    simp
  refine ⟨?_, ?_, (hg.1 3 s).2, (hg.1 3 s).1⟩
  · cases c <;> simp_all [Wrap]
  · simp [Wrap, hne]

/-- Witness of C15: a foreign error and a message wrapped over a nil error. -/
theorem wrap_keeps_witness :
    Wrap sampleGo .nil (.error (.foreign "eof")) = .withError .nil (.foreign "eof") ∧
    Wrap sampleGo .nil (.string "read failed")
      = .withError .nil (.err (sampleGo.newWithLevel 3 ["read failed"])) ∧
    (sampleGo.newWithLevel 3 ["read failed"]).Msg = "read failed" ∧
    (sampleGo.newWithLevel 3 ["read failed"]).Code = "" :=
  wrap_keeps sampleGo sampleGo_keepsArgs .nil (.foreign "eof") "read failed"
    (by decide) (by decide)

end Errors

namespace Errors

/-! ## Splitting -/

theorem splitChars_ne_nil (sep : Char) (l : List Char) : splitChars sep l ≠ [] := by
  induction l with
  | nil => simp [splitChars]
  | cons c cs ih =>
    rw [splitChars]
    split
    · simp
    · split <;> simp

/-- A sequence without the separator is one field. -/
theorem splitChars_of_not_mem (sep : Char) (l : List Char) (h : sep ∉ l) :
    splitChars sep l = [l] := by
  induction l with
  | nil => rfl
  | cons c cs ih =>
    have hc : c ≠ sep := fun hc => h (by simp [hc])
    have hcs : sep ∉ cs := fun hm => h (List.mem_cons_of_mem _ hm)
    simp [splitChars, hc, ih hcs]

/-- The first field ends at the first separator. -/
theorem splitChars_append (sep : Char) (a rest : List Char) (h : sep ∉ a) :
    splitChars sep (a ++ sep :: rest) = a :: splitChars sep rest := by
  induction a with
  | nil => simp [splitChars]
  | cons c cs ih =>
    have hc : c ≠ sep := fun hc => h (by simp [hc])
    have hcs : sep ∉ cs := fun hm => h (List.mem_cons_of_mem _ hm)
    simp [splitChars, hc, ih hcs]

theorem split_of_not_mem (sep : Char) (a : String) (h : sep ∉ a.data) :
    Split a sep = [a] := by
  simp [Split, splitChars_of_not_mem sep a.data h]

theorem split_append (sep : Char) (a b : String) (h : sep ∉ a.data) :
    Split (a ++ String.singleton sep ++ b) sep = a :: Split b sep := by
  have hd : (a ++ String.singleton sep ++ b).data = a.data ++ sep :: b.data := by
    simp [String.data_append, String.singleton]
  simp [Split, hd, splitChars_append sep a.data b.data h]

/-- The lines of a text made of newline-free lines joined by newlines are
those lines. -/
theorem split_join (line : String) (lines : List String)
    (h : ∀ l ∈ line :: lines, '\n' ∉ l.data) :
    Split (Join (line :: lines) "\n") '\n' = line :: lines := by
  induction lines generalizing line with
  | nil => exact split_of_not_mem _ _ (h line (by simp))
  | cons l ls ih =>
    have hl : '\n' ∉ line.data := h line (by simp)
    have hsplit := split_append '\n' line (Join (l :: ls) "\n") hl
    have hrest := ih l (fun x hx => h x (List.mem_cons_of_mem _ hx))
    rw [Join]
    change Split (line ++ String.singleton '\n' ++ Join (l :: ls) "\n") '\n' = line :: l :: ls
    rw [hsplit, hrest]

end Errors

namespace Errors

/-! ## Parsing one line -/

theorem data_two (a b : String) : (a ++ " " ++ b).data = a.data ++ ' ' :: b.data := by
  simp [String.data_append]

theorem data_three (a b c : String) :
    (a ++ " " ++ b ++ " " ++ c).data = a.data ++ ' ' :: (b.data ++ ' ' :: c.data) := by
  simp [String.data_append]

theorem split_two (a b : String) (ha : ' ' ∉ a.data) (hb : ' ' ∉ b.data) :
    Split (a ++ " " ++ b) ' ' = [a, b] := by
  simp [Split, data_two, splitChars_append _ _ _ ha, splitChars_of_not_mem _ _ hb]

theorem split_three (a b c : String) (ha : ' ' ∉ a.data) (hb : ' ' ∉ b.data)
    (hc : ' ' ∉ c.data) : Split (a ++ " " ++ b ++ " " ++ c) ' ' = [a, b, c] := by
  simp [Split, data_three, splitChars_append _ _ _ ha, splitChars_append _ _ _ hb,
    splitChars_of_not_mem _ _ hc]

/-- The input of one line: the loop runs once, from a nil `finalError`. -/
theorem unmarshal_oneLine (g : ErrorGo) (data : String) (h : '\n' ∉ data.data) :
    Unmarshal g data = unmarshalStep g data .nil := by
  simp [Unmarshal, unmarshalLines, split_of_not_mem _ _ h]

theorem isCode_of_last (b : String) (c : Char) (h : b.data.getLast? = some c) :
    isCode b = some (decide (c = ':')) := by
  have hiff : c.val = 58 ↔ c = ':' :=
    ⟨fun hv => Char.ext (by rw [hv]; rfl), fun hc => by rw [hc]; rfl⟩
  simp [isCode, h, hiff]

end Errors

namespace Errors

theorem extractCode_replicate (l : List Char) (n : Nat) (h : l.getLast? ≠ some ':') :
    extractCode ⟨l ++ List.replicate n ':'⟩ = ⟨l⟩ := by
  have hbase : l.rdropWhile (fun c => decide (c = ':')) = l := by
    rw [List.rdropWhile_eq_self_iff]
    intro hl hp
    apply h
    rw [List.getLast?_eq_getLast _ hl]
    simpa using hp
  have key : (l ++ List.replicate n ':').rdropWhile (fun c => decide (c = ':')) = l := by
    induction n with
    | zero => simpa using hbase
    | succ n ih =>
      rw [List.replicate_succ', ← List.append_assoc,
        List.rdropWhile_concat_pos _ _ _ (by simp)]
      exact ih
  simp [extractCode, TrimRightColon, key]

/-- A line is skipped exactly when the loop body takes its `default` branch. -/
theorem parseLine_eq_skip_iff (e : String) : parseLine e = some none ↔ Skipped e := by
  unfold parseLine Skipped fieldCount
  rcases Split e ' ' with _ | ⟨a, _ | ⟨b, _ | ⟨c, _ | ⟨d, r⟩⟩⟩⟩
  · simp
  · simp
  · simp
  · rcases h : isCode b with _ | _ | _ <;> simp [h]
  · simp

/-- A line yields an `Error` exactly when it has 2 fields, or 3 fields with a
middle field that is not empty. -/
theorem parseLine_isSome_iff (e : String) :
    (∃ err, parseLine e = some (some err)) ↔
      (fieldCount e = 2 ∨ ∃ a b c, Split e ' ' = [a, b, c] ∧ b ≠ "") := by
  unfold parseLine fieldCount
  rcases Split e ' ' with _ | ⟨a, _ | ⟨b, _ | ⟨c, _ | ⟨d, r⟩⟩⟩⟩
  · simp
  · simp
  · simp
  · have hb : isCode b = none ↔ b = "" := by
      unfold isCode
      rcases b with ⟨l⟩
      rcases hl : l.getLast? with _ | x
      · simp [List.getLast?_eq_none_iff] at hl
        simp [hl]
      · have : l ≠ [] := by
          rintro rfl
          simp at hl
        simp [this]
        intro h
        exact this (by simpa using congrArg String.data h)
    rcases hc : isCode b with _ | _ | _
    · have hempty := hb.1 hc
      constructor
      · rintro ⟨err, h⟩
        simp [hc] at h
      · rintro (h | ⟨a', b', c', h, hne⟩)
        · simp at h
        · simp only [List.cons.injEq] at h
          exact absurd (h.2.1 ▸ hempty) hne
    · have : b ≠ "" := fun h => by simp [hb.2 h] at hc
      constructor
      · intro _
        exact Or.inr ⟨a, b, c, rfl, this⟩
      · intro _
        simp [hc]
    · have : b ≠ "" := fun h => by simp [hb.2 h] at hc
      constructor
      · intro _
        exact Or.inr ⟨a, b, c, rfl, this⟩
      · intro _
        simp [hc]
  · simp

theorem unmarshalLines_cons (g : ErrorGo) (e : String) (es : List String) :
    unmarshalLines g (e :: es) = (unmarshalLines g es).bind (unmarshalStep g e) := rfl

theorem unmarshalStep_skipped (g : ErrorGo) (e : String) (h : Skipped e) :
    (fun acc => unmarshalStep g e acc) = some := by
  funext acc
  simp [unmarshalStep, (parseLine_eq_skip_iff e).2 h]

theorem unmarshalLines_filter (g : ErrorGo) (lines : List String) (keep : String → Bool)
    (hkeep : ∀ l ∈ lines, keep l = false → Skipped l) :
    unmarshalLines g (lines.filter keep) = unmarshalLines g lines := by
  induction lines with
  | nil => rfl
  | cons e es ih =>
    have ih' := ih (fun l hl => hkeep l (List.mem_cons_of_mem _ hl))
    cases hk : keep e
    · have hskip := hkeep e (by simp) hk
      rw [List.filter_cons_of_neg (by simp [hk]), unmarshalLines_cons, ih']
      have := unmarshalStep_skipped g e hskip
      simp only [Option.bind_eq_bind] at *
      rw [show unmarshalStep g e = some from this]
      simp
    · rw [List.filter_cons_of_pos (by simp [hk]), unmarshalLines_cons, unmarshalLines_cons, ih']

theorem unmarshalLines_eq_nil_iff (g : ErrorGo) (lines : List String) :
    unmarshalLines g lines = some .nil ↔ ∀ l ∈ lines, Skipped l := by
  induction lines with
  | nil => simp [unmarshalLines]
  | cons e es ih =>
    rw [unmarshalLines_cons, List.forall_mem_cons, ← ih, ← parseLine_eq_skip_iff]
    rcases hp : parseLine e with _ | _ | err
    · simp [unmarshalStep, hp]
    · rcases unmarshalLines g es with _ | acc <;> simp [unmarshalStep, hp]
    · rcases unmarshalLines g es with _ | acc <;> simp [unmarshalStep, hp, Wrap]

theorem unmarshal_join (g : ErrorGo) (lines : List String)
    (h : ∀ l ∈ lines, '\n' ∉ l.data) :
    Unmarshal g (Join lines "\n") = unmarshalLines g lines := by
  cases lines with
  | nil => rfl
  | cons l ls => rw [Unmarshal, split_join l ls h]

theorem unmarshalLines_chain (g : ErrorGo) (lines : List String) (errs : List Error)
    (hparse : lines.map parseLine = errs.map (fun e => some (some e))) :
    unmarshalLines g lines = some (chainOf errs) := by
  induction lines generalizing errs with
  | nil =>
    cases errs with
    | nil => rfl
    | cons e es => simp at hparse
  | cons l ls ih =>
    cases errs with
    | nil => simp at hparse
    | cons e es =>
      simp only [List.map_cons, List.cons.injEq] at hparse
      rw [unmarshalLines_cons, ih es hparse.2]
      simp [unmarshalStep, hparse.1, Wrap, chainOf]

theorem chainOf_current (errs : List Error) (i : Nat) (hi : i < errs.length) :
    currentOf (previousN i (chainOf errs)) = some (.err errs[i]) := by
  induction errs generalizing i with
  | nil => simp at hi
  | cons e es ih =>
    cases i with
    | zero => rfl
    | succ i => simpa [chainOf, previousN] using ih i (by simpa using hi)

theorem chainOf_bottom (errs : List Error) : previousN errs.length (chainOf errs) = .nil := by
  induction errs with
  | nil => rfl
  | cons e es ih => simpa [chainOf, previousN] using ih

end Errors

namespace Errors

/-! ## Unmarshal -/

/-- C22: on the input "a  b" the line splits into the three fields "a", ""
and "b", `isCode` reads index `len(code)-1` of the empty middle field, and
`Unmarshal` panics instead of returning. -/
theorem unmarshal_emptyField_panics (g : ErrorGo) :
    Split "a  b" ' ' = ["a", "", "b"] ∧ isCode "" = none ∧ Unmarshal g "a  b" = none := by
  refine ⟨by decide, rfl, rfl⟩

/-- Every line of three fields with an empty middle field makes `Unmarshal`
panic, whatever the two other fields. -/
theorem unmarshal_emptyField_panics_general (g : ErrorGo) (a c : String)
    (ha : ∀ ch ∈ a.data, ch ≠ ' ' ∧ ch ≠ '\n') (hc : ∀ ch ∈ c.data, ch ≠ ' ' ∧ ch ≠ '\n') :
    Unmarshal g (a ++ " " ++ "" ++ " " ++ c) = none := by
  have hnl : '\n' ∉ (a ++ " " ++ "" ++ " " ++ c).data := by
    rw [data_three]
    simp only [List.mem_append, List.mem_cons, not_or]
    exact ⟨fun h => (ha _ h).2 rfl, by decide, by simp, by decide, fun h => (hc _ h).2 rfl⟩
  rw [unmarshal_oneLine g _ hnl, unmarshalStep, parseLine,
    split_three a "" c (fun h => (ha _ h).1 rfl) (by simp) (fun h => (hc _ h).1 rfl)]
  rfl

/-- The code extracted from a field is the field without its trailing colons:
the field is the code followed by colons only, and the code does not end in a
colon. -/
theorem extractCode_spec (b : String) :
    ∃ n, b.data = (extractCode b).data ++ List.replicate n ':' ∧
      (extractCode b).data.getLast? ≠ some ':' := by
  simp only [extractCode, TrimRightColon]
  constructor
  swap
  · exact (b.data.rtakeWhile (fun ch => decide (ch = ':'))).length
  constructor
  · induction b.data using List.reverseRecOn with
    | nil => simp
    | append_singleton l x ih =>
      by_cases hx : x = ':'
      · subst hx
        rw [List.rdropWhile_concat_pos _ _ _ (by simp),
          List.rtakeWhile_concat_pos _ _ _ (by simp), List.length_append, List.length_singleton,
          List.replicate_succ', ← List.append_assoc, ← ih]
      · rw [List.rdropWhile_concat_neg _ _ _ (by simpa using hx),
          List.rtakeWhile_concat_neg _ _ _ (by simpa using hx)]
        simp
  · intro h
    have hne : b.data.rdropWhile (fun ch => decide (ch = ':')) ≠ [] := by
      intro h0
      simp [h0] at h
    have hnot := List.rdropWhile_last_not (fun ch => decide (ch = ':')) b.data hne
    rw [List.getLast?_eq_getLast _ hne, Option.some.injEq] at h
    simp [h] at hnot

/-- C23: an input of one line.  Two fields `a b` give Location `a`, an empty
Code and Msg `b`; three fields `a b c` whose middle field ends in a colon give
Location `a`, Code `b` without its trailing colons and Msg `c`; three fields
whose middle field is not empty and does not end in a colon give Location `a`,
an empty Code and Msg `b c`.  The result is a wrapper with a nil previous. -/
theorem unmarshal_fields (g : ErrorGo) (a b c : String)
    (ha : ∀ ch ∈ a.data, ch ≠ ' ' ∧ ch ≠ '\n') (hb : ∀ ch ∈ b.data, ch ≠ ' ' ∧ ch ≠ '\n')
    (hc : ∀ ch ∈ c.data, ch ≠ ' ' ∧ ch ≠ '\n') :
    Unmarshal g (a ++ " " ++ b) =
      some (.withError .nil (.err { Location := a, Code := "", Msg := b })) ∧
    (b.data.getLast? = some ':' →
      Unmarshal g (a ++ " " ++ b ++ " " ++ c) =
        some (.withError .nil (.err { Location := a, Code := extractCode b, Msg := c })) ∧
      ∃ n, b.data = (extractCode b).data ++ List.replicate n ':' ∧
        (extractCode b).data.getLast? ≠ some ':') ∧
    (b ≠ "" → b.data.getLast? ≠ some ':' →
      Unmarshal g (a ++ " " ++ b ++ " " ++ c) =
        some (.withError .nil (.err { Location := a, Code := "", Msg := b ++ " " ++ c }))) := by
  have sa : ' ' ∉ a.data := fun h => (ha _ h).1 rfl
  have sb : ' ' ∉ b.data := fun h => (hb _ h).1 rfl
  have sc : ' ' ∉ c.data := fun h => (hc _ h).1 rfl
  have n2 : '\n' ∉ (a ++ " " ++ b).data := by
    rw [data_two]
    simp only [List.mem_append, List.mem_cons, not_or]
    exact ⟨fun h => (ha _ h).2 rfl, by decide, fun h => (hb _ h).2 rfl⟩
  have n3 : '\n' ∉ (a ++ " " ++ b ++ " " ++ c).data := by
    rw [data_three]
    simp only [List.mem_append, List.mem_cons, not_or]
    exact ⟨fun h => (ha _ h).2 rfl, by decide, fun h => (hb _ h).2 rfl, by decide,
      fun h => (hc _ h).2 rfl⟩
  refine ⟨?_, fun hlast => ⟨?_, ?_⟩, fun hne hlast => ?_⟩
  · rw [unmarshal_oneLine g _ n2, unmarshalStep, parseLine, split_two a b sa sb]
    simp [Wrap]
  · rw [unmarshal_oneLine g _ n3, unmarshalStep, parseLine, split_three a b c sa sb sc]
    simp [Wrap, isCode_of_last b ':' hlast]
  · exact extractCode_spec b
  · obtain ⟨last, hl⟩ : ∃ last, b.data.getLast? = some last := by
      rcases h : b.data.getLast? with _ | x
      · rw [List.getLast?_eq_none_iff] at h
        exact absurd (String.ext h) hne
      · exact ⟨x, rfl⟩
    have hx : last ≠ ':' := fun h => hlast (by rw [hl, h])
    rw [unmarshal_oneLine g _ n3, unmarshalStep, parseLine, split_three a b c sa sb sc]
    simp [Wrap, isCode_of_last b last hl, hx, Join]

end Errors

namespace Errors

/-- Witness of C23: the line "f.go 500: boom". -/
theorem unmarshal_fields_witness :
    Unmarshal sampleGo ("f.go" ++ " " ++ "500:" ++ " " ++ "boom") =
      some (.withError .nil
        (.err { Location := "f.go", Code := extractCode "500:", Msg := "boom" })) ∧
    extractCode "500:" = "500" :=
  ⟨((unmarshal_fields sampleGo "f.go" "500:" "boom" (by decide) (by decide) (by decide)).2.1
    (by decide)).1, by decide⟩

/-- C24: lines that have neither 2 nor 3 fields are dropped: removing lines
of that kind from the input does not change what `Unmarshal` returns, and
`Unmarshal` returns a nil error exactly when every line of the input is of
that kind. -/
theorem unmarshal_skips (g : ErrorGo) (lines : List String) (keep : String → Bool)
    (data : String) (hlines : ∀ l ∈ lines, '\n' ∉ l.data)
    (hkeep : ∀ l ∈ lines, keep l = false → Skipped l) :
    Unmarshal g (Join (lines.filter keep) "\n") = Unmarshal g (Join lines "\n") ∧
    (Unmarshal g data = some .nil ↔ ∀ l ∈ Split data '\n', Skipped l) := by
  constructor
  · rw [unmarshal_join g lines hlines,
      unmarshal_join g _ (fun l hl => hlines l (List.mem_filter.1 hl).1),
      unmarshalLines_filter g lines keep hkeep]
  · exact unmarshalLines_eq_nil_iff g _

/-- Witness of C24: the middle line has five fields and is removed. -/
theorem unmarshal_skips_witness :
    Unmarshal sampleGo (Join ["l1 m1", "l2 c: m2"] "\n") =
      Unmarshal sampleGo (Join ["l1 m1", "skip this line here please", "l2 c: m2"] "\n") ∧
    (Unmarshal sampleGo "" = some .nil ↔ ∀ l ∈ Split "" '\n', Skipped l) :=
  unmarshal_skips sampleGo ["l1 m1", "skip this line here please", "l2 c: m2"]
    (fun l => decide (l ≠ "skip this line here please")) "" (by decide) (by decide)

/-- C25: for an input of lines that each yield an `Error`, `Unmarshal` returns
the chain of as many wrappers, in input order from the top: the current error
of the wrapper reached by following `previous` `i` times is the `Error` of
line `i + 1`, and the previous of the last wrapper is nil. -/
theorem unmarshal_chain (g : ErrorGo) (lines : List String) (errs : List Error)
    (hlines : ∀ l ∈ lines, '\n' ∉ l.data)
    (hparse : lines.map parseLine = errs.map (fun e => some (some e))) :
    Unmarshal g (Join lines "\n") = some (chainOf errs) ∧
    errs.length = lines.length ∧
    (∀ i (hi : i < errs.length),
      currentOf (previousN i (chainOf errs)) = some (.err errs[i])) ∧
    previousN errs.length (chainOf errs) = .nil := by
  refine ⟨?_, ?_, chainOf_current errs, chainOf_bottom errs⟩
  · rw [unmarshal_join g lines hlines, unmarshalLines_chain g lines errs hparse]
  · simpa using (congrArg List.length hparse).symm

/-- Witness of C25: two lines, the first without a code, the second with the
code "c". -/
theorem unmarshal_chain_witness :
    Unmarshal sampleGo (Join ["l1 m1", "l2 c: m2"] "\n") =
      some (.withError (.withError .nil (.err ⟨"c", "m2", "l2"⟩)) (.err ⟨"", "m1", "l1"⟩)) :=
  (unmarshal_chain sampleGo ["l1 m1", "l2 c: m2"] [⟨"", "m1", "l1"⟩, ⟨"c", "m2", "l2"⟩]
    (by decide) (by decide)).1

/-! ## Top on a foreign current error, Is on codes -/

/-- With the sample texts, `Top` of a foreign error wrapped over an `*Error`
is the two-line text of the chain and not the message of the foreign error. -/
theorem top_wrap_foreign_sample :
    Top sampleGo (Wrap sampleGo (.err ⟨"500", "boom", "f.go"⟩) (.error (.foreign "eof"))) =
      some "eof\nf.go 500: boom" := by
  decide

/-- C27: two `*Error` values with the same non-empty code match whatever their
messages, and when exactly one of the two codes is empty they do not match,
even with equal messages. -/
theorem is_code_decides (a t : Error) :
    (a.Code = t.Code → a.Code ≠ "" → Is (.err a) t = true) ∧
    ((a.Code = "" ∧ t.Code ≠ "") ∨ (a.Code ≠ "" ∧ t.Code = "") → Is (.err a) t = false) := by
  constructor
  · intro hcode hne
    unfold Is
    rw [if_neg (fun h => hne h.1)]
    simp [hcode]
  · rintro (⟨ha, ht⟩ | ⟨ha, ht⟩)
    · simp [Is, ha, ht]
      exact fun h => ht h.symm
    · simp [Is, ha, ht]

/-- Witness of C27: the same code with two messages, then one empty code with
the same message. -/
theorem is_code_decides_witness :
    Is (.err ⟨"404", "gone", ""⟩) ⟨"404", "not here", ""⟩ = true ∧
    Is (.err ⟨"", "gone", ""⟩) ⟨"404", "gone", ""⟩ = false :=
  ⟨(is_code_decides ⟨"404", "gone", ""⟩ ⟨"404", "not here", ""⟩).1 (by decide) (by decide),
   (is_code_decides ⟨"", "gone", ""⟩ ⟨"404", "gone", ""⟩).2 (Or.inl (by decide))⟩

end Errors
